import Mathlib

/-!
Verification of the request-classification policy of the waf-challenge
repository.  The repository's firewall configuration
(`src/aws/lib/waf-challenge.ts`, `wafRules` and the web ACL default action)
is embedded as data; the classifier that consumes this data is a managed
cloud service, so its evaluation semantics is modelled from the spec
(sections 3 and 4.1: MATCH leaves with EXACT / CONTAINS operators and
optional case normalisation, AND / OR / NOT composition, label matches,
first rule with a terminal action wins, default action otherwise).
Strings are modelled as lists of characters.
-/

namespace WafChallenge

/-- The LOWERCASE text transformation on one character: converts the
uppercase ASCII letters A through Z to lowercase, leaving everything
else unchanged. -/
def lowerChar (c : Char) : Char :=
  if h : 65 ≤ c.toNat ∧ c.toNat ≤ 90 then
    Char.ofNatAux (c.toNat + 32) (Or.inl (by omega))
  else c

/-- The LOWERCASE text transformation on a whole field value. -/
def lower (s : List Char) : List Char := s.map lowerChar

/-- View a string literal as the list of its characters. -/
def str (s : String) : List Char := s.data

/-- A classification outcome: the three dispositions of the spec. -/
inductive Outcome
  | allow
  | block
  | challenge
deriving DecidableEq, Repr

/-- A rule action: the three terminal outcomes plus CONTINUE
(proceed to the next rule). -/
inductive Action
  | allow
  | block
  | challenge
  | cont
deriving DecidableEq, Repr

/-- The request fields a MATCH leaf may inspect
(`fieldToMatch` in the source). -/
inductive Field
  | uriPath
  | method
  | header (name : List Char)
deriving DecidableEq, Repr

/-- Positional constraint of a byte match (`positionalConstraint`). -/
inductive PosConstraint
  | exactly
  | contains
deriving DecidableEq, Repr

/-- Text transformation of a byte match (`textTransformations`). -/
inductive Transform
  | none
  | lowercase
deriving DecidableEq, Repr

/-- Match statements, mirroring the nesting used in `wafRules`:
byte matches with a positional constraint and a transformation,
AND / OR / NOT composition, and label matches. -/
inductive Statement
  | byteMatch (field : Field) (pos : PosConstraint) (search : List Char) (tf : Transform)
  | andStmt (ss : List Statement)
  | orStmt (ss : List Statement)
  | notStmt (s : Statement)
  | labelMatch (key : List Char)

/-- A rule is either a regular statement rule with its own action
(like the token rule, `action: block`), or a managed rule group with a
scope-down statement and per-signal action overrides (like the bot
control rule with its `scopeDownStatement` and `ruleActionOverrides`). -/
inductive RuleKind
  | regular (stmt : Statement) (action : Action)
  | managedGroup (scopeDown : Statement) (overrides : List (List Char × Action))

/-- A firewall rule: name, priority (lower evaluates first) and kind. -/
structure Rule where
  name : List Char
  priority : Nat
  kind : RuleKind

/-- An inbound request, per the spec's data model: method, path, headers
and the set of signal labels attached by upstream inspection. -/
structure Request where
  method : List Char
  path : List Char
  headers : List (List Char × List Char)
  signals : List (List Char)

/-- The output of classification. -/
structure Disposition where
  outcome : Outcome
  matchedRule : Option (List Char)
  labels : List (List Char)
deriving DecidableEq, Repr

/-- A policy: the ordered rule list and the configured default action. -/
structure Policy where
  rules : List Rule
  defaultAction : Outcome

/-- Substring test: does the search string occur contiguously anywhere
in the value?  This is the CONTAINS positional constraint. -/
def containsSub (needle : List Char) : List Char → Bool
  | [] => needle.isEmpty
  | c :: cs => needle.isPrefixOf (c :: cs) || containsSub needle cs

/-- The value of a request field, with the first matching header looked
up by name (the source configuration matches no headers). -/
def fieldValue (r : Request) : Field → List Char
  | .uriPath => r.path
  | .method => r.method
  | .header n => ((r.headers.find? (fun p => p.1 == n)).map Prod.snd).getD []

/-- Apply a text transformation to a field value. -/
def applyTransform : Transform → List Char → List Char
  | .none, s => s
  | .lowercase, s => lower s

mutual

/-- Modelled from the spec: the predicate evaluator of the Classifier
(spec 4.1), absent from the repository source, which only declares the
statements as data.  EXACT compares the transformed field value
byte-for-byte with the search string, CONTAINS checks substring
presence, AND / OR / NOT compose with standard boolean semantics, and a
label match checks the request's signal labels. -/
def evalStatement (r : Request) : Statement → Bool
  | .byteMatch f pos search tf =>
      let v := applyTransform tf (fieldValue r f)
      match pos with
      | .exactly => v == search
      | .contains => containsSub search v
  | .andStmt ss => evalAll r ss
  | .orStmt ss => evalAny r ss
  | .notStmt s => !(evalStatement r s)
  | .labelMatch key => r.signals.contains key

/-- Conjunction of a list of statements, left to right. -/
def evalAll (r : Request) : List Statement → Bool
  | [] => true
  | s :: ss => evalStatement r s && evalAll r ss

/-- Disjunction of a list of statements, left to right. -/
def evalAny (r : Request) : List Statement → Bool
  | [] => false
  | s :: ss => evalStatement r s || evalAny r ss

end

/-- The outcome of a terminal action; CONTINUE yields none. -/
def actionOutcome : Action → Option Outcome
  | .allow => some .allow
  | .block => some .block
  | .challenge => some .challenge
  | .cont => none

/-- Modelled from the spec: the per-signal override mapping of a managed
rule group (spec 4.3), consulted after the base predicate matches — the
first override whose signal name is carried by the request supplies the
action. -/
def overrideHit (r : Request) : List (List Char × Action) → Option Action
  | [] => none
  | (n, a) :: rest => if r.signals.contains n then some a else overrideHit r rest

/-- The base predicate of a rule: its statement, or for a managed group
its scope-down statement. -/
def rulePred (r : Request) (rule : Rule) : Bool :=
  match rule.kind with
  | .regular stmt _ => evalStatement r stmt
  | .managedGroup scope _ => evalStatement r scope

/-- Modelled from the spec: one rule's verdict.  A regular rule whose
statement matches yields its action's outcome (none for CONTINUE); a
managed group whose scope-down statement matches yields the outcome of
the first override hit by the request's signals, or none when the
managed evaluation finds nothing to act on. -/
def evalRule (r : Request) (rule : Rule) : Option Outcome :=
  match rule.kind with
  | .regular stmt act =>
      if evalStatement r stmt then actionOutcome act else none
  | .managedGroup scope overrides =>
      if evalStatement r scope then (overrideHit r overrides).bind actionOutcome
      else none

/-- First rule with a terminal verdict, with its name. -/
def runRules (r : Request) : List Rule → Option (Outcome × List Char)
  | [] => none
  | rule :: rest =>
      match evalRule r rule with
      | some o => some (o, rule.name)
      | none => runRules r rest

/-- Modelled from the spec: `classify(request, policy) -> Disposition`
(spec 4.1).  Iterates the policy's rules in order; the first rule with a
terminal verdict determines the outcome and the matched rule name; if no
rule matches, the policy's default action applies.  The request's signal
labels are carried through to the disposition. -/
def classify (p : Policy) (r : Request) : Disposition :=
  match runRules r p.rules with
  | some (o, n) => { outcome := o, matchedRule := some n, labels := r.signals }
  | none => { outcome := p.defaultAction, matchedRule := none, labels := r.signals }

/-! ## The source configuration

The rule data of `wafRules` in `src/aws/lib/waf-challenge.ts`, embedded
statement for statement. -/

/-- The statement excluding OPTIONS requests, appearing verbatim in both
rules: NOT (method EXACTLY "OPTIONS", transform NONE). -/
def notOptionsStmt : Statement :=
  .notStmt (.byteMatch .method .exactly (str "OPTIONS") .none)

/-- The bot control rule's scope-down statement: the URI path contains
"dev" after LOWERCASE, and the request is not an OPTIONS request. -/
def botScopeDown : Statement :=
  .andStmt
    [ .byteMatch .uriPath .contains (str "dev") .lowercase,
      notOptionsStmt ]

/-- The bot control rule's recommended action overrides: each of the
three targeted signals is mapped to the challenge action. -/
def botOverrides : List (List Char × Action) :=
  [ (str "TGT_VolumetricIpTokenAbsent", .challenge),
    (str "SignalNonBrowserUserAgent", .challenge),
    (str "CategoryHttpLibrary", .challenge) ]

/-- Rule 1 of `wafRules`: the AWSManagedRulesBotControlRuleSet managed
rule group at priority 1, with its scope-down statement and the three
challenge overrides. -/
def botControlRule : Rule :=
  { name := str "AWSManagedRulesBotControlRuleSet",
    priority := 1,
    kind := .managedGroup botScopeDown botOverrides }

/-- The label key of the managed token-absent signal. -/
def tokenAbsentKey : List Char := str "awswaf:managed:token:absent"

/-- The label key of the managed token-rejected signal. -/
def tokenRejectedKey : List Char := str "awswaf:managed:token:rejected"

/-- Rule 2 of `wafRules`: block requests labelled with a missing or
rejected token, at priority 2, unless the request is OPTIONS. -/
def tokenRule : Rule :=
  { name := str "Block-Requests-With-Missing-Or-Rejected-Token-Label",
    priority := 2,
    kind := .regular
      (.andStmt
        [ .orStmt
            [ .labelMatch tokenAbsentKey,
              .labelMatch tokenRejectedKey ],
          notOptionsStmt ])
      .block }

/-- The rule list of the web ACL, in declaration order. -/
def wafRules : List Rule := [botControlRule, tokenRule]

/-- The web ACL of the source: its rules together with the configured
default action, which is allow. -/
def wafPolicy : Policy := { rules := wafRules, defaultAction := .allow }

/-! ## The Policy Store -/

/-- Insert a rule into a priority-sorted list, after any rule of equal
priority already there (ties keep declaration order). -/
def insertRule (a : Rule) : List Rule → List Rule
  | [] => [a]
  | b :: bs => if a.priority < b.priority then a :: b :: bs else b :: insertRule a bs

/-- Stable sort of a rule list by ascending priority. -/
def sortRules (l : List Rule) : List Rule :=
  l.foldl (fun acc a => insertRule a acc) []

/-- An ambiguous rule list: two distinct positions carry the same
priority and their base predicates are simultaneously true for some
common request. -/
def rulesAmbiguous (rules : List Rule) : Prop :=
  ∃ i j : Fin rules.length, i.val < j.val ∧
    (rules.get i).priority = (rules.get j).priority ∧
    ∃ r : Request, rulePred r (rules.get i) = true ∧ rulePred r (rules.get j) = true

/-- The result of loading the Policy Store. -/
inductive LoadResult
  | ok (p : Policy)
  | configError

/-- Modelled from the spec: the Policy Store's `load` (spec 4.3 and 7)
is absent from the repository source, which only declares the rule
list.  Loading an unambiguous rule list yields the policy with its
rules sorted by ascending priority; loading an ambiguous one fails with
ConfigError at load time. -/
inductive load : List Rule → Outcome → LoadResult → Prop
  | ok (rs : List Rule) (d : Outcome) :
      ¬ rulesAmbiguous rs → load rs d (.ok { rules := sortRules rs, defaultAction := d })
  | err (rs : List Rule) (d : Outcome) :
      rulesAmbiguous rs → load rs d .configError

/-! ## The serverless handler (`src/api/index.js`) -/

/-- The shape of the handler's return value. -/
structure LambdaResponse where
  statusCode : Nat
  headers : List (String × String)
  body : String
deriving DecidableEq, Repr

/-- The canned response body object. -/
def responseBody : List (String × String) := [("hello", "from waf-challenge")]

/-- JSON serialisation of a flat object with string fields. -/
def jsonStringify (fields : List (String × String)) : String :=
  "\x7b" ++
    String.intercalate "," (fields.map (fun p => "\"" ++ p.1 ++ "\":\"" ++ p.2 ++ "\"")) ++
    "\x7d"

/-- The serverless API handler: ignores its event and context and
returns the canned 200 response with the CORS header. -/
def handler {E C : Type} (event : E) (context : C) : LambdaResponse :=
  { statusCode := 200,
    headers := [("Access-Control-Allow-Origin", "*")],
    body := jsonStringify responseBody }

/-- A sample request with no headers: method, path and signal labels. -/
def mkRequest (m p : String) (signals : List String) : Request :=
  { method := str m, path := str p, headers := [], signals := signals.map str }

/-! ## Helper lemmas -/

theorem lowerChar_toNat (c : Char) (h : 65 ≤ c.toNat ∧ c.toNat ≤ 90) :
    (lowerChar c).toNat = c.toNat + 32 := by
  simp only [lowerChar, dif_pos h]
  rfl

theorem lowerChar_idem (c : Char) : lowerChar (lowerChar c) = lowerChar c := by
  by_cases h : 65 ≤ c.toNat ∧ c.toNat ≤ 90
  · have h2 := lowerChar_toNat c h
    have hn : ¬ (65 ≤ (lowerChar c).toNat ∧ (lowerChar c).toNat ≤ 90) := by omega
    conv_lhs => rw [lowerChar]
    rw [dif_neg hn]
  · have hc : lowerChar c = c := by rw [lowerChar, dif_neg h]
    rw [hc]
    exact hc

theorem lower_idem (s : List Char) : lower (lower s) = lower s := by
  simp only [lower, List.map_map]
  exact List.map_congr_left (fun c _ => lowerChar_idem c)

theorem runRules_append_of_none (r : Request) (l₁ l₂ : List Rule)
    (h : ∀ u ∈ l₁, evalRule r u = none) :
    runRules r (l₁ ++ l₂) = runRules r l₂ := by
  induction l₁ with
  | nil => rfl
  | cons a as ih =>
      simp only [List.cons_append, runRules]
      rw [h a (by simp)]
      exact ih (fun u hu => h u (by simp [hu]))

theorem runRules_eq_none (r : Request) (l : List Rule)
    (h : ∀ u ∈ l, evalRule r u = none) :
    runRules r l = none := by
  simpa using runRules_append_of_none r l [] h

theorem runRules_first (r : Request) (l₁ : List Rule) (rule : Rule) (l₂ : List Rule)
    (o : Outcome) (h₁ : ∀ u ∈ l₁, evalRule r u = none)
    (h₂ : evalRule r rule = some o) :
    runRules r (l₁ ++ rule :: l₂) = some (o, rule.name) := by
  rw [runRules_append_of_none r l₁ _ h₁]
  simp only [runRules, h₂]

theorem classify_first (p : Policy) (r : Request) (l₁ : List Rule) (rule : Rule)
    (l₂ : List Rule) (o : Outcome) (hp : p.rules = l₁ ++ rule :: l₂)
    (h₁ : ∀ u ∈ l₁, evalRule r u = none) (h₂ : evalRule r rule = some o) :
    classify p r =
      { outcome := o, matchedRule := some rule.name, labels := r.signals } := by
  simp only [classify, hp, runRules_first r l₁ rule l₂ o h₁ h₂]

theorem classify_default (p : Policy) (r : Request)
    (h : ∀ u ∈ p.rules, evalRule r u = none) :
    classify p r =
      { outcome := p.defaultAction, matchedRule := none, labels := r.signals } := by
  simp only [classify, runRules_eq_none r p.rules h]

/-! ## The claims -/

/-- C1: every request whose method is OPTIONS is never blocked and never
challenged, regardless of path, headers or signal labels: both rules of
the policy conjunct a method-is-not-OPTIONS condition, so OPTIONS
requests fall through to the default allow. -/
theorem options_never_blocked_or_challenged (r : Request)
    (h : r.method = str "OPTIONS") :
    (classify wafPolicy r).outcome ≠ .block ∧
    (classify wafPolicy r).outcome ≠ .challenge := by
  have h1 : evalRule r botControlRule = none := by
    simp [evalRule, botControlRule, botScopeDown, notOptionsStmt, evalStatement, evalAll,
      applyTransform, fieldValue, h]
  have h2 : evalRule r tokenRule = none := by
    simp [evalRule, tokenRule, notOptionsStmt, evalStatement, evalAll, evalAny,
      applyTransform, fieldValue, h]
  have hc : classify wafPolicy r =
      { outcome := .allow, matchedRule := none, labels := r.signals } := by
    apply classify_default
    intro u hu
    simp only [wafPolicy, wafRules, List.mem_cons, List.not_mem_nil, or_false] at hu
    rcases hu with rfl | rfl
    · exact h1
    · exact h2
  simp [hc]

/-- Witness for C1: the spec's third example — an OPTIONS request on
/dev/hello carrying the token-absent label is neither blocked nor
challenged. -/
theorem options_never_blocked_or_challenged_witness :
    (mkRequest "OPTIONS" "/dev/hello" ["awswaf:managed:token:absent"]).method
      = str "OPTIONS" ∧
    ((classify wafPolicy
        (mkRequest "OPTIONS" "/dev/hello" ["awswaf:managed:token:absent"])).outcome
          ≠ .block ∧
      (classify wafPolicy
        (mkRequest "OPTIONS" "/dev/hello" ["awswaf:managed:token:absent"])).outcome
          ≠ .challenge) :=
  ⟨by decide,
    options_never_blocked_or_challenged
      (mkRequest "OPTIONS" "/dev/hello" ["awswaf:managed:token:absent"]) (by decide)⟩

/-- C2: the policy's rules are in ascending priority order; the first
rule with a terminal verdict determines the outcome; a request matched
by no rule gets the policy's default action, which in the source
configuration is allow; and GET /dev/hello with no signals is allowed. -/
theorem first_match_priority_order_and_default_allow :
    List.Sorted (fun a b => a < b) (wafPolicy.rules.map Rule.priority) ∧
    (∀ (p : Policy) (r : Request) (l₁ : List Rule) (rule : Rule) (l₂ : List Rule)
        (o : Outcome),
      p.rules = l₁ ++ rule :: l₂ →
      (∀ u ∈ l₁, evalRule r u = none) →
      evalRule r rule = some o →
      classify p r = { outcome := o, matchedRule := some rule.name, labels := r.signals }) ∧
    (∀ (p : Policy) (r : Request),
      (∀ u ∈ p.rules, evalRule r u = none) →
      classify p r =
        { outcome := p.defaultAction, matchedRule := none, labels := r.signals }) ∧
    classify wafPolicy (mkRequest "GET" "/dev/hello" [])
      = { outcome := .allow, matchedRule := none, labels := [] } := by
  refine ⟨by decide, ?_, ?_, by decide⟩
  · intro p r l₁ rule l₂ o hp h₁ h₂
    exact classify_first p r l₁ rule l₂ o hp h₁ h₂
  · intro p r h
    exact classify_default p r h

/-- Witness for C2: the token rule is the first terminal match for a
GET /dev/hello request labelled token-absent, and determines the
disposition. -/
theorem first_match_priority_order_and_default_allow_witness :
    wafPolicy.rules = [botControlRule] ++ tokenRule :: [] ∧
    (∀ u ∈ [botControlRule],
      evalRule (mkRequest "GET" "/dev/hello" ["awswaf:managed:token:absent"]) u = none) ∧
    evalRule (mkRequest "GET" "/dev/hello" ["awswaf:managed:token:absent"]) tokenRule
      = some .block ∧
    classify wafPolicy (mkRequest "GET" "/dev/hello" ["awswaf:managed:token:absent"])
      = { outcome := .block, matchedRule := some tokenRule.name,
          labels := (mkRequest "GET" "/dev/hello" ["awswaf:managed:token:absent"]).signals } :=
  ⟨rfl, by decide, by decide,
    first_match_priority_order_and_default_allow.2.1 wafPolicy
      (mkRequest "GET" "/dev/hello" ["awswaf:managed:token:absent"])
      [botControlRule] tokenRule [] .block rfl (by decide) (by decide)⟩

/-- C3: a non-OPTIONS request labelled token-absent or token-rejected is
blocked by the missing-or-rejected-token rule, provided evaluation
reaches that rule (the bot control rule produced no terminal verdict). -/
theorem missing_or_rejected_token_label_blocks (r : Request)
    (hsig : tokenAbsentKey ∈ r.signals ∨ tokenRejectedKey ∈ r.signals)
    (hm : r.method ≠ str "OPTIONS")
    (hreach : evalRule r botControlRule = none) :
    classify wafPolicy r =
      { outcome := .block,
        matchedRule := some (str "Block-Requests-With-Missing-Or-Rejected-Token-Label"),
        labels := r.signals } := by
  have h2 : evalRule r tokenRule = some .block := by
    rcases hsig with h | h <;>
      simp [evalRule, tokenRule, notOptionsStmt, evalStatement, evalAll, evalAny,
        applyTransform, fieldValue, actionOutcome, hm, h]
  exact classify_first wafPolicy r [botControlRule] tokenRule [] .block rfl
    (by intro u hu; simp only [List.mem_singleton] at hu; rw [hu]; exact hreach) h2

/-- Witness for C3: the spec's second example — GET /dev/hello with the
token-absent label is blocked with the token rule as matched rule. -/
theorem missing_or_rejected_token_label_blocks_witness :
    (tokenAbsentKey ∈ (mkRequest "GET" "/dev/hello" ["awswaf:managed:token:absent"]).signals ∨
      tokenRejectedKey ∈ (mkRequest "GET" "/dev/hello" ["awswaf:managed:token:absent"]).signals) ∧
    classify wafPolicy (mkRequest "GET" "/dev/hello" ["awswaf:managed:token:absent"])
      = { outcome := .block,
          matchedRule := some (str "Block-Requests-With-Missing-Or-Rejected-Token-Label"),
          labels := (mkRequest "GET" "/dev/hello" ["awswaf:managed:token:absent"]).signals } :=
  ⟨by decide,
    missing_or_rejected_token_label_blocks
      (mkRequest "GET" "/dev/hello" ["awswaf:managed:token:absent"])
      (by decide) (by decide) (by decide)⟩

/-- C4: a request whose lowercased path does not contain the scope
substring "dev" is never matched by the bot control rule, and its
classification is exactly what the remaining rules and the default
action decide. -/
theorem out_of_scope_path_skips_bot_control (r : Request)
    (h : containsSub (str "dev") (lower r.path) = false) :
    evalRule r botControlRule = none ∧
    classify wafPolicy r = classify { rules := [tokenRule], defaultAction := .allow } r := by
  have h1 : evalRule r botControlRule = none := by
    simp [evalRule, botControlRule, botScopeDown, notOptionsStmt, evalStatement, evalAll,
      applyTransform, fieldValue, h]
  refine ⟨h1, ?_⟩
  simp [classify, wafPolicy, wafRules, runRules, h1]

/-- Witness for C4: a GET request on /other is out of scope for the bot
control rule. -/
theorem out_of_scope_path_skips_bot_control_witness :
    containsSub (str "dev") (lower (mkRequest "GET" "/other" []).path) = false ∧
    (evalRule (mkRequest "GET" "/other" []) botControlRule = none ∧
      classify wafPolicy (mkRequest "GET" "/other" [])
        = classify { rules := [tokenRule], defaultAction := .allow }
            (mkRequest "GET" "/other" [])) :=
  ⟨by decide, out_of_scope_path_skips_bot_control (mkRequest "GET" "/other" []) (by decide)⟩

/-- C5: the bot control rule's overrides map each of the three targeted
signals to challenge, and a scope-matched non-OPTIONS request carrying
any one of them is challenged. -/
theorem targeted_signal_overrides_challenge (r : Request)
    (hscope : containsSub (str "dev") (lower r.path) = true)
    (hm : r.method ≠ str "OPTIONS")
    (hsig : str "TGT_VolumetricIpTokenAbsent" ∈ r.signals ∨
      str "SignalNonBrowserUserAgent" ∈ r.signals ∨
      str "CategoryHttpLibrary" ∈ r.signals) :
    botOverrides = [(str "TGT_VolumetricIpTokenAbsent", Action.challenge),
      (str "SignalNonBrowserUserAgent", Action.challenge),
      (str "CategoryHttpLibrary", Action.challenge)] ∧
    (classify wafPolicy r).outcome = .challenge := by
  have hov : overrideHit r botOverrides = some .challenge := by
    by_cases h1 : str "TGT_VolumetricIpTokenAbsent" ∈ r.signals <;>
      by_cases h2 : str "SignalNonBrowserUserAgent" ∈ r.signals <;>
        by_cases h3 : str "CategoryHttpLibrary" ∈ r.signals <;>
          simp [overrideHit, botOverrides, h1, h2, h3] <;> tauto
  have h1 : evalRule r botControlRule = some .challenge := by
    simp [evalRule, botControlRule, botScopeDown, notOptionsStmt, evalStatement, evalAll,
      applyTransform, fieldValue, hscope, hm, hov, actionOutcome]
  refine ⟨rfl, ?_⟩
  have hc := classify_first wafPolicy r [] botControlRule [tokenRule] .challenge rfl
    (by simp) h1
  simp [hc]

/-- Witness for C5: a GET /dev/hello request with a non-browser user
agent signal is challenged. -/
theorem targeted_signal_overrides_challenge_witness :
    containsSub (str "dev")
      (lower (mkRequest "GET" "/dev/hello" ["SignalNonBrowserUserAgent"]).path) = true ∧
    (classify wafPolicy
      (mkRequest "GET" "/dev/hello" ["SignalNonBrowserUserAgent"])).outcome = .challenge :=
  ⟨by decide,
    (targeted_signal_overrides_challenge
      (mkRequest "GET" "/dev/hello" ["SignalNonBrowserUserAgent"])
      (by decide) (by decide) (by decide)).2⟩

/-- C6: loading the Policy Store fails with ConfigError exactly when the
rule list is ambiguous — two positions of equal priority whose base
predicates are simultaneously satisfiable — and the source rule list
loads successfully into the policy; classification itself has no error
path, so the ambiguity check lives entirely at load time. -/
theorem load_fails_iff_ambiguous :
    (∀ (rs : List Rule) (d : Outcome) (res : LoadResult),
        load rs d res → (res = .configError ↔ rulesAmbiguous rs)) ∧
    load wafRules .allow (.ok wafPolicy) := by
  constructor
  · intro rs d res h
    cases h with
    | ok hna => exact Iff.intro (fun he => by cases he) (fun ha => absurd ha hna)
    | err ha => exact Iff.intro (fun _ => ha) (fun _ => rfl)
  · have hna : ¬ rulesAmbiguous wafRules := by
      rintro ⟨i, j, hij, hpri, -⟩
      have hlen : wafRules.length = 2 := rfl
      have hi : i.val < 2 := by omega
      have hj : j.val < 2 := by omega
      have hi0 : i = ⟨0, by omega⟩ := Fin.ext (show i.val = 0 by omega)
      have hj1 : j = ⟨1, by omega⟩ := Fin.ext (show j.val = 1 by omega)
      rw [hi0, hj1] at hpri
      simp [wafRules, botControlRule, tokenRule] at hpri
    have hw : wafPolicy = { rules := sortRules wafRules, defaultAction := .allow } := rfl
    rw [hw]
    exact load.ok wafRules .allow hna

/-- Witness for C6: instantiating the load/ConfigError equivalence at
the source configuration, whose successful load the theorem itself
provides. -/
theorem load_fails_iff_ambiguous_witness :
    (LoadResult.ok wafPolicy = LoadResult.configError ↔ rulesAmbiguous wafRules) :=
  load_fails_iff_ambiguous.1 wafRules .allow (.ok wafPolicy) load_fails_iff_ambiguous.2

/-- C7: classification is total and deterministic — every request under
any policy yields exactly one of the three outcomes, and two
classifications of the same request against the same policy agree. -/
theorem classify_total_deterministic (p : Policy) (r : Request) :
    ((classify p r).outcome = .allow ∨ (classify p r).outcome = .block ∨
      (classify p r).outcome = .challenge) ∧
    (∀ d₁ d₂ : Disposition, classify p r = d₁ → classify p r = d₂ → d₁ = d₂) := by
  constructor
  · cases h : (classify p r).outcome <;> simp
  · intro d₁ d₂ h₁ h₂
    rw [← h₁, ← h₂]

/-- Witness for C7: two classifications of GET /dev/hello against the
source policy coincide. -/
theorem classify_total_deterministic_witness :
    classify wafPolicy (mkRequest "GET" "/dev/hello" [])
      = classify wafPolicy (mkRequest "GET" "/dev/hello" []) :=
  (classify_total_deterministic wafPolicy (mkRequest "GET" "/dev/hello" [])).2
    (classify wafPolicy (mkRequest "GET" "/dev/hello" []))
    (classify wafPolicy (mkRequest "GET" "/dev/hello" [])) rfl rfl

/-- C8: the serverless API handler returns the same canned response for
every event and context: status 200, the wildcard CORS header, and the
JSON serialisation of the hello object as body. -/
theorem handler_returns_canned_response {E C : Type} (event : E) (context : C) :
    handler event context =
      { statusCode := 200,
        headers := [("Access-Control-Allow-Origin", "*")],
        body := "\x7b\"hello\":\"from waf-challenge\"\x7d" } := by
  have hb : jsonStringify responseBody = "\x7b\"hello\":\"from waf-challenge\"\x7d" := by
    decide
  simp [handler, hb]

/-- C9: the bot control scope lowercases the path before the CONTAINS
"dev" test, so classification is invariant under lowercasing the
request path, and /DEV/hello is in scope exactly as /dev/hello is. -/
theorem classification_invariant_under_path_case (r : Request) :
    classify wafPolicy { r with path := lower r.path } = classify wafPolicy r ∧
    evalStatement (mkRequest "GET" "/DEV/hello" []) botScopeDown = true ∧
    evalStatement (mkRequest "GET" "/dev/hello" []) botScopeDown = true := by
  refine ⟨?_, by decide, by decide⟩
  have hov : overrideHit { r with path := lower r.path } botOverrides
      = overrideHit r botOverrides := rfl
  have h1 : evalRule { r with path := lower r.path } botControlRule
      = evalRule r botControlRule := by
    simp [evalRule, botControlRule, botScopeDown, notOptionsStmt, evalStatement, evalAll,
      applyTransform, fieldValue, lower_idem, hov]
  have h2 : evalRule { r with path := lower r.path } tokenRule = evalRule r tokenRule := rfl
  simp [classify, wafPolicy, wafRules, runRules, h1, h2]

/-- C10: the OPTIONS exclusion compares the method byte-exactly with no
transformation, so only the exact byte string OPTIONS is excluded: a
lowercase "options" request carrying the token-absent label is blocked,
not allowed. -/
theorem options_exclusion_is_byte_exact :
    (∀ r : Request, evalStatement r notOptionsStmt = !(r.method == str "OPTIONS")) ∧
    (classify wafPolicy (mkRequest "options" "/dev/hello"
      ["awswaf:managed:token:absent"])).outcome = .block :=
  ⟨fun _ => rfl, by decide⟩

end WafChallenge
